import Mathlib

/-
Verification of the Cerebro IPTV playlist generator (src/cerebro.py) against
its natural-language specification.

The Python source is shallowly embedded below.  Regular-expression searches
over channel/VOD names are embedded as explicit keyword searches over
lowercased character lists: every regex in the source is an alternation of
literal keywords, optionally wrapped in word boundaries, so `re.search`
truthiness is exactly "some keyword occurs (with the required boundaries)".
Python word characters are modelled as ASCII alphanumerics plus underscore,
and `str.lower` as ASCII `Char.toLower`, which agree with Python on the
ASCII inputs the pipeline manipulates.
-/

set_option autoImplicit false

namespace Cerebro

/-- ASCII-lowercased character list of a string (models `str.lower()`). -/
def lowerList (s : String) : List Char :=
  s.toList.map Char.toLower

/-- `starts pat s` is true iff `pat` is a prefix of `s` (literal char match). -/
def starts : List Char → List Char → Bool
  | [], _ => true
  | _ :: _, [] => false
  | a :: as, b :: bs => a == b && starts as bs

/-- `subOcc pat s` is true iff `pat` occurs as a contiguous substring of `s`
(models an unanchored regex search for a literal). -/
def subOcc (pat : List Char) : List Char → Bool
  | [] => pat.isEmpty
  | c :: rest => starts pat (c :: rest) || subOcc pat rest

/-- `sfxOcc pat s` is true iff `pat` is a suffix of `s` (models a `$`-anchored
literal regex alternative). -/
def sfxOcc (pat s : List Char) : Bool :=
  starts pat.reverse s.reverse

/-- Python regex word character `\w` (ASCII fragment): `[a-zA-Z0-9_]`. -/
def isWordChar (c : Char) : Bool :=
  c.isAlphanum || c == '_'

/-- A word boundary is satisfied next to position `o` (`none` = string edge). -/
def boundaryOk : Option Char → Bool
  | none => true
  | some c => !isWordChar c

/-- Keyword `kw` matches at the current position: the preceding character
(`prev`) satisfies `\b` (every keyword begins with a word character), `kw` is
a literal prefix of the remaining input `s`, and, when `needAfter` is set
(patterns of the shape `\b(...)\b`), the character following the match also
satisfies `\b`. -/
def hitAt (kw : List Char) (needAfter : Bool) (prev : Option Char) (s : List Char) : Bool :=
  boundaryOk prev && starts kw s && (!needAfter || boundaryOk (s.drop kw.length).head?)

/-- Scan the input for a boundary-respecting occurrence of `kw`. -/
def kwSearch (kw : List Char) (needAfter : Bool) : Option Char → List Char → Bool
  | prev, [] => hitAt kw needAfter prev []
  | prev, c :: rest => hitAt kw needAfter prev (c :: rest) || kwSearch kw needAfter (some c) rest

/-- `re.search` of an alternation of literal keywords with a leading `\b`
(and a trailing `\b` when `needAfter`), case-insensitive. -/
def reWordSearch (kws : List String) (needAfter : Bool) (name : String) : Bool :=
  kws.any (fun kw => kwSearch kw.toList needAfter none (lowerList name))

/-- Keywords of `Constants.GLOBAL_BLOCKLIST`; each alternation group of the
source regex carries a leading `\b` only (no trailing boundary). -/
def BLOCKLIST_KWS : List String :=
  ["spain", "españa", "tve", "antena 3", "telecinco", "rtve", "portugal",
   "french", "italian", "arab", "korea", "hindi", "turkish", "xxx", "adult",
   "porn", "hdcam", "cam", "vose", "subt", "subtitulada",
   "peru", "perú", "chile", "argentina", "colombia", "venezuela", "ecuador",
   "uruguay", "paraguay", "bolivia", "costa rica", "guatemala", "honduras",
   "salvador", "panama", "dominicana", "brasil", "brazil", "br", "pe", "cl",
   "ar", "co", "uy", "py", "bo", "cr", "gt", "hn", "sv", "pa", "do"]

/-- Keywords of `Constants.REGEX_SPORTS` (pattern shape `\b(...)\b`). -/
def SPORTS_KWS : List String :=
  ["espn", "fox", "sport", "deporte", "tudn", "dazn", "nba", "nfl", "mlb",
   "ufc", "wwe", "f1", "gp", "futbol", "soccer", "liga", "match", "gol",
   "win", "afizzionados", "claro sports", "fighting", "racing", "tennis",
   "golf", "bein"]

/-- Keywords of `Constants.REGEX_MUSIC`. -/
def MUSIC_KWS : List String :=
  ["mtv", "vh1", "telehit", "banda", "musica", "music", "radio", "fm", "pop",
   "rock", "viva", "beat", "exa", "concert", "recital", "deezer", "spotify",
   "tidal", "k-pop", "ritmoson", "cmtv", "htv", "vevo"]

/-- Keywords of `Constants.REGEX_KIDS`. -/
def KIDS_KWS : List String :=
  ["kids", "infantil", "cartoon", "nick", "disney", "discovery kids",
   "paka paka", "boing", "clantv", "cbeebies", "zaz", "toons", "baby",
   "junior"]

/-- Keywords of `Constants.REGEX_DOCS`. -/
def DOCS_KWS : List String :=
  ["discovery", "history", "nat geo", "national geographic", "documental",
   "docu", "a&e", "misterio", "science", "viajes", "travel", "animal planet",
   "h&h"]

/-- Keywords of `Constants.REGEX_GENERAL`. -/
def GENERAL_KWS : List String :=
  ["mexico", "mx", "cdmx", "azteca", "televisa", "estrellas", "canal 5",
   "imagen", "multimedios", "milenio", "foro tv", "noticias", "news",
   "telemundo", "univision", "hbo", "tnt", "space", "universal", "sony",
   "warner", "axn", "cine", "cinema", "golden", "edge", "distrito comedia"]

/-- `re.search(Constants.GLOBAL_BLOCKLIST, name)` as a Boolean. -/
def globalBlockMatch (name : String) : Bool :=
  reWordSearch BLOCKLIST_KWS false name

/-- `re.search(Constants.REGEX_KIDS, name)` as a Boolean. -/
def kidsMatch (name : String) : Bool :=
  reWordSearch KIDS_KWS true name

/-- `re.search(Constants.REGEX_SPORTS, name)` as a Boolean. -/
def sportsMatch (name : String) : Bool :=
  reWordSearch SPORTS_KWS true name

/-- `re.search(Constants.REGEX_MUSIC, name)` as a Boolean. -/
def musicMatch (name : String) : Bool :=
  reWordSearch MUSIC_KWS true name

/-- `re.search(Constants.REGEX_DOCS, name)` as a Boolean. -/
def docsMatch (name : String) : Bool :=
  reWordSearch DOCS_KWS true name

/-- `re.search(Constants.REGEX_GENERAL, name)` as a Boolean. -/
def generalMatch (name : String) : Bool :=
  reWordSearch GENERAL_KWS true name

/-- `"latino" in name.lower()`. -/
def latinoSub (name : String) : Bool :=
  subOcc ("latino".toList) (lowerList name)

/-- `ContentTransformer.categorize` (src/cerebro.py lines 144-154). -/
def categorize (name : String) : Option String :=
  if globalBlockMatch name then none
  else if kidsMatch name then some "KIDS"
  else if sportsMatch name then some "SPORTS"
  else if musicMatch name then some "MUSIC"
  else if docsMatch name then some "DOCS"
  else if generalMatch name || latinoSub name then some "LIVE_TV"
  else none

/-- `ContentTransformer.detect_quality` (lines 137-142); the three quality
regexes are `\b(...)\b` keyword alternations. -/
def detect_quality (name : String) : String :=
  if reWordSearch ["4k", "uhd", "2160p"] true name then "4K"
  else if reWordSearch ["fhd", "1080p", "hevc"] true name then "FHD"
  else if reWordSearch ["hd", "720p"] true name then "HD"
  else "SD"

/-- `ContentTransformer.is_premiere` (lines 156-158): `REGEX_PREMIERE` is the
unanchored alternation `(2024|2025)`, a plain substring search. -/
def is_premiere (name : String) : Bool :=
  subOcc ("2024".toList) name.toList || subOcc ("2025".toList) name.toList

/-- Digit-string value: `foldl` over decimal digits. -/
def digitsToNat (l : List Char) : Nat :=
  l.foldl (fun a c => 10 * a + (c.toNat - 48)) 0

/-- Digits before the (first) dot of a decimal literal. -/
def intPart (s : List Char) : List Char :=
  s.takeWhile (fun c => c ≠ '.')

/-- Digits after the (first) dot of a decimal literal. -/
def fracPart (s : List Char) : List Char :=
  (s.dropWhile (fun c => c ≠ '.')).drop 1

/-- Value denoted by a decimal literal made of digits and at most one dot
(the shape `float` receives inside `clean_rating` after stripping). -/
def decValue (s : List Char) : ℚ :=
  (digitsToNat (intPart s) : ℚ) +
    (digitsToNat (fracPart s) : ℚ) / (10 : ℚ) ^ (fracPart s).length

/-- A character list is accepted by Python `float`: only digits and dots,
at most one dot, and at least one digit. -/
def isFloatLit (s : List Char) : Bool :=
  s.all (fun c => c.isDigit || c == '.') && s.count '.' ≤ 1 && s.any (fun c => c.isDigit)

/-- Python `float(...)` on the digit/dot strings produced inside
`clean_rating`; a rejected literal is the `ValueError` branch. -/
def pyFloat (s : List Char) : Option ℚ :=
  if isFloatLit s then some (decValue s) else none

/-- `ContentTransformer.clean_rating` (lines 124-135) on a string input.
`str(value).lower().split('/')[0]` is the lowered prefix before the first
slash; `re.sub(r"[^0-9.]", "", _)` is the digit/dot filter. -/
def clean_rating (value : String) : ℚ :=
  if value = "" then 0
  else
    let valStr := (lowerList value).takeWhile (fun c => c ≠ '/')
    if subOcc ("n/a".toList) valStr then 0
    else
      let stripped := valStr.filter (fun c => c.isDigit || c == '.')
      if stripped = [] then 0
      else
        match pyFloat stripped with
        | some r => min r 10
        | none => 0

/-- `clean_rating` lifted to an optional raw field (`item.get('rating')`
may be absent, which Python's `if not value` also sends to `0.0`). -/
def clean_rating_opt : Option String → ℚ
  | none => 0
  | some s => clean_rating s

/-- Python truthiness filter on an optional string field: `a or b` chains
treat both a missing field and an empty string as falsy. -/
def truthy : Option String → Option String
  | none => none
  | some s => if s = "" then none else some s

/-- `Constants.FALLBACK_IMAGE_URL`. -/
def FALLBACK_IMAGE_URL : String :=
  "https://via.placeholder.com/300x450?text=No+Image"

/-- Xtream source configuration (entries of `SOURCES` in `main`). -/
structure Source where
  host : String
  user : String
  pass : String
  srcAlias : String
deriving DecidableEq

/-- A raw `get_live_streams` record, restricted to the fields the program
reads.  Optional fields model `item.get(...)`; an absent `stream_id` (or the
falsy `''`) models Python's `not stream_id`. -/
structure RawLive where
  name : String
  stream_id : Option String
  stream_icon : Option String
deriving DecidableEq

/-- A raw `get_vod_streams` record, restricted to the fields the program
reads.  `releasedate` and `releaseDate` are the two distinct upstream keys. -/
structure RawVod where
  name : String
  stream_id : Option String
  stream_icon : Option String
  cover : Option String
  container_extension : Option String
  rating : Option String
  plot : Option String
  genre : Option String
  releasedate : Option String
  releaseDate : Option String
  cast : Option String
deriving DecidableEq

/-- A raw `get_series` record, restricted to the fields the program reads. -/
structure RawSeries where
  name : String
  series_id : Option String
  cover : Option String
  stream_icon : Option String
  rating : Option String
  plot : Option String
  genre : Option String
  releasedate : Option String
  releaseDate : Option String
  cast : Option String
  backdrop_path : List String
  youtube_trailer : Option String
deriving DecidableEq

/-- The pydantic `LiveItem` model.  URLs are kept as plain strings; pydantic's
`HttpUrl` validation is treated as always succeeding on the URLs the program
synthesizes. -/
structure LiveItem where
  title : String
  contentId : String
  group : String
  url : String
  hdPosterUrl : String
  quality : String
  source_alias : String
deriving DecidableEq

/-- The pydantic `VodItem` model. -/
structure VodItem where
  title : String
  contentId : String
  group : String
  url : String
  hdPosterUrl : String
  quality : String
  rating : ℚ
  plot : String
  genre : String
  releaseDate : String
  cast : String
  source_alias : String
deriving DecidableEq

/-- The pydantic `SeriesItem` model (a `VodItem` plus backdrops/trailer). -/
structure SeriesItem where
  title : String
  contentId : String
  group : String
  url : String
  hdPosterUrl : String
  quality : String
  rating : ℚ
  plot : String
  genre : String
  releaseDate : String
  cast : String
  source_alias : String
  backdrop_path : List String
  youtube_trailer : String
deriving DecidableEq

/-- An element of a playlist bucket (`Dict[str, List[BaseModel]]` holds
heterogeneous pydantic items). -/
inductive CatalogItem where
  | live (it : LiveItem)
  | vod (it : VodItem)
  | series (it : SeriesItem)
deriving DecidableEq

/-- `item.title` on any bucket element. -/
def CatalogItem.title : CatalogItem → String
  | .live it => it.title
  | .vod it => it.title
  | .series it => it.title

/-- `item.quality` on any bucket element. -/
def CatalogItem.quality : CatalogItem → String
  | .live it => it.quality
  | .vod it => it.quality
  | .series it => it.quality

/-- `item.url` on any bucket element. -/
def CatalogItem.url : CatalogItem → String
  | .live it => it.url
  | .vod it => it.url
  | .series it => it.url

/-- A playlist: the insertion-ordered `Dict[str, List[BaseModel]]`. -/
abbrev Playlist := List (String × List CatalogItem)

/-- The eight category keys, in the dict insertion order used by both the
per-processor playlists and `final_playlist` in `main`. -/
def emptyPlaylist : Playlist :=
  [("live_tv", []), ("sports", []), ("music", []), ("kids", []), ("docs", []),
   ("movies", []), ("series", []), ("premieres", [])]

/-- Bucket lookup (`playlist[key]`, first entry with the key). -/
def bucketOf (pl : Playlist) (k : String) : List CatalogItem :=
  match pl with
  | [] => []
  | (k', l) :: rest => if k' = k then l else bucketOf rest k

/-- `playlist[key].append(x)` guarded by `key in playlist` (a missing key is
a no-op, as in `_process_live`). -/
def appendTo (pl : Playlist) (k : String) (x : CatalogItem) : Playlist :=
  pl.map (fun e => if e.1 = k then (e.1, e.2 ++ [x]) else e)

/-- `ContentTransformer.transform_xtream_live` (lines 160-178). -/
def transform_xtream_live (item : RawLive) (src : Source) (category : String) :
    Option LiveItem :=
  match item.stream_id with
  | none => none
  | some sid =>
    if item.name = "" || sid = "" then none
    else
      some
        { title := item.name
          contentId := sid
          group := category
          url := src.host ++ "/live/" ++ src.user ++ "/" ++ src.pass ++ "/" ++ sid ++ ".ts"
          hdPosterUrl := ((truthy item.stream_icon).getD FALLBACK_IMAGE_URL)
          quality := detect_quality item.name
          source_alias := src.srcAlias }

/-- `ContentTransformer.transform_xtream_vod` (lines 180-207). -/
def transform_xtream_vod (item : RawVod) (src : Source) : Option VodItem :=
  match item.stream_id with
  | none => none
  | some sid =>
    if item.name = "" || sid = "" then none
    else
      some
        { title := item.name
          contentId := sid
          group := "MOVIE"
          url := src.host ++ "/movie/" ++ src.user ++ "/" ++ src.pass ++ "/" ++ sid
            ++ "." ++ (item.container_extension.getD "mp4")
          hdPosterUrl :=
            (((truthy item.stream_icon).orElse (fun _ => truthy item.cover)).getD
              FALLBACK_IMAGE_URL)
          quality := detect_quality item.name
          rating := clean_rating_opt item.rating
          plot := item.plot.getD "Sin descripción disponible."
          genre := item.genre.getD "General"
          releaseDate := ((truthy item.releasedate).getD (item.releaseDate.getD "N/A"))
          cast := item.cast.getD "N/A"
          source_alias := src.srcAlias }

/-- `ContentTransformer.transform_xtream_series` (lines 209-239). -/
def transform_xtream_series (item : RawSeries) (src : Source) : Option SeriesItem :=
  match item.series_id with
  | none => none
  | some sid =>
    if item.name = "" || sid = "" then none
    else
      some
        { title := item.name
          contentId := sid
          group := "SERIES"
          url := src.host ++ "/player_api.php?username=" ++ src.user ++ "&password="
            ++ src.pass ++ "&action=get_series_info&series_id=" ++ sid
          hdPosterUrl :=
            (((truthy item.cover).orElse (fun _ => truthy item.stream_icon)).getD
              FALLBACK_IMAGE_URL)
          quality := detect_quality item.name
          rating := clean_rating_opt item.rating
          plot := item.plot.getD "Sin descripción disponible."
          genre := item.genre.getD "General"
          releaseDate := ((truthy item.releaseDate).getD (item.releasedate.getD "N/A"))
          cast := item.cast.getD "N/A"
          source_alias := src.srcAlias
          backdrop_path := item.backdrop_path
          youtube_trailer := item.youtube_trailer.getD "" }

/-- `item.group.lower()` for the playlist key used by `_process_live`. -/
def lowerStr (s : String) : String :=
  String.mk (s.toList.map Char.toLower)

/-- `XtreamProcessor._process_live` (lines 325-356): filter by `categorize`,
transform, probe each surviving item's URL, and append the items whose probe
returned true to the bucket named by their lowered group.  The liveness
verdict of a URL is supplied by the oracle `alive` (the network outcome of
`check_stream_health`); verdicts are applied in the scheduling order of
`zip(valid_items, results)`. -/
def processLive (src : Source) (data : List RawLive) (alive : String → Bool)
    (pl : Playlist) : Playlist :=
  let valid : List LiveItem := data.filterMap (fun item =>
    match categorize item.name with
    | some category => transform_xtream_live item src category
    | none => none)
  valid.foldl (fun p it =>
    if alive it.url then appendTo p (lowerStr it.group) (.live it) else p) pl

/-- `XtreamProcessor._process_vod` (lines 359-374). -/
def processVod (src : Source) (data : List RawVod) (pl : Playlist) : Playlist :=
  match data with
  | [] => pl
  | item :: rest =>
    if globalBlockMatch item.name then processVod src rest pl
    else
      match transform_xtream_vod item src with
      | none => processVod src rest pl
      | some v =>
        let pl1 := appendTo pl "movies" (.vod v)
        let pl2 := if is_premiere v.title then appendTo pl1 "premieres" (.vod v) else pl1
        processVod src rest pl2

/-- `XtreamProcessor._process_series` (lines 376-392). -/
def processSeries (src : Source) (data : List RawSeries) (pl : Playlist) : Playlist :=
  match data with
  | [] => pl
  | item :: rest =>
    if globalBlockMatch item.name then processSeries src rest pl
    else
      match transform_xtream_series item src with
      | none => processSeries src rest pl
      | some v =>
        let pl1 := appendTo pl "series" (.series v)
        let pl2 := if is_premiere v.title then appendTo pl1 "premieres" (.series v) else pl1
        processSeries src rest pl2

/-- The three fetched category payloads of one source (`None` models a fetch
failure of `_fetch_category`). -/
structure SourceInput where
  live : Option (List RawLive)
  vod : Option (List RawVod)
  series : Option (List RawSeries)

/-- `XtreamProcessor.process` (lines 294-309): build the per-source playlist,
processing each non-falsy fetched payload. -/
def processSource (src : Source) (inp : SourceInput) (alive : String → Bool) : Playlist :=
  let pl0 := emptyPlaylist
  let pl1 := match inp.live with
    | some d => if d = [] then pl0 else processLive src d alive pl0
    | none => pl0
  let pl2 := match inp.vod with
    | some d => if d = [] then pl1 else processVod src d pl1
    | none => pl1
  match inp.series with
  | some d => if d = [] then pl2 else processSeries src d pl2
  | none => pl2

/-- One merge step of `main` (lines 433-435):
`for key, items in res.items(): final[key].extend(items)`. -/
def mergeInto (final res : Playlist) : Playlist :=
  final.map (fun e => (e.1, e.2 ++ bucketOf res e.1))

/-- Merge all per-source playlists into the fresh `final_playlist`. -/
def mergeAll (ps : List Playlist) : Playlist :=
  ps.foldl mergeInto emptyPlaylist

/-- `re.sub(r'[^a-z0-9]', '', item.title.lower())`: the normalized title used
by the deduplication pass. -/
def normTitle (title : String) : List Char :=
  (lowerList title).filter (fun c => ('a' ≤ c && c ≤ 'z') || c.isDigit)

/-- The dedup identity `f"{clean_title}-{item.quality}"` (line 451).  The
Python code stores `hash(...)` of this string; the key string itself is used
here, i.e. the built-in string hash is modelled as injective. -/
def dedupKey (x : CatalogItem) : List Char :=
  normTitle x.title ++ '-' :: x.quality.toList

/-- The per-bucket dedup loop of `main` (lines 447-455), threading the shared
`unique_hashes` set (modelled as the list of seen keys). -/
def dedupAux (seen : List (List Char)) : List CatalogItem → List CatalogItem × List (List Char)
  | [] => ([], seen)
  | x :: rest =>
    if (dedupKey x) ∈ seen then dedupAux seen rest
    else
      let r := dedupAux (dedupKey x :: seen) rest
      (x :: r.1, r.2)

/-- The outer dedup loop of `main` (lines 442-461): one `unique_hashes` set
shared across every bucket, visited in dict insertion order. -/
def dedupBuckets (seen : List (List Char)) : Playlist → Playlist
  | [] => []
  | (k, l) :: rest =>
    let r := dedupAux seen l
    (k, r.1) :: dedupBuckets r.2 rest

/-- The final deduplication pass over `final_playlist`. -/
def dedupPlaylist (pl : Playlist) : Playlist :=
  dedupBuckets [] pl

/-- The published catalog of one run of `main`: process every source, merge,
then deduplicate.  (The metadata block and JSON serialization are outside the
modelled core.) -/
def runMain (runs : List (Source × SourceInput)) (alive : String → Bool) : Playlist :=
  dedupPlaylist (mergeAll (runs.map (fun r => processSource r.1 r.2 alive)))

/-- Outcome of the single `session.head` probe of `check_stream_health`:
either a completed response with a status code, or a timeout / connection
failure (anything the bare `except` catches). -/
inductive ProbeOutcome where
  | status (code : Nat)
  | timeout
  | connectionError
deriving DecidableEq

/-- `Constants.STREAM_COMPATIBILITY_BLOCKLIST`: case-insensitive substring
alternatives plus `$`-anchored extension alternatives. -/
def streamCompatMatch (url : String) : Bool :=
  (["youtube.com", "youtu.be", "twitch.tv", "facebook.com", "dailymotion.com"].any
    (fun d => subOcc d.toList (lowerList url))) ||
  ([".html", ".php", ".aspx", ".rss", ".xml"].any
    (fun e => sfxOcc e.toList (lowerList url)))

/-- `check_stream_health` (lines 266-275): a blocklisted URL is rejected
without probing; otherwise the verdict of the single probe decides —
`response.status < 400` on completion, `False` on any exception. -/
def check_stream_health (url : String) (probe : ProbeOutcome) : Bool :=
  if streamCompatMatch url then false
  else
    match probe with
    | .status code => code < 400
    | .timeout => false
    | .connectionError => false

/-- Spec-side definition (refinement target for the liveness claim): the
spec's "a redirect response and several explicit ok status codes" read as the
HTTP success (2xx) and redirect (3xx) classes. -/
def specProbeSuccess (code : Nat) : Bool :=
  (200 ≤ code && code < 300) || (300 ≤ code && code < 400)

/-- Spec-side definition: lexicographic order on character lists, used to
state "sorted by title". -/
def charListLe : List Char → List Char → Bool
  | [], _ => true
  | _ :: _, [] => false
  | a :: as, b :: bs => if a = b then charListLe as bs else decide (a < b)

/-- Spec-side definition: a bucket is sorted by title. -/
def sortedByTitle : List CatalogItem → Bool
  | [] => true
  | [_] => true
  | x :: y :: rest => charListLe x.title.toList y.title.toList && sortedByTitle (y :: rest)

/-- All vod items produced by one `_process_vod` run (blocklist filter then
transformation), in input order. -/
def vodAdds (src : Source) (data : List RawVod) : List VodItem :=
  data.filterMap (fun item =>
    if globalBlockMatch item.name then none else transform_xtream_vod item src)

/-- Whether a catalog item came from the live path.  Used to state which part
of the published catalog was liveness-verified. -/
def PlPred (q : CatalogItem → Prop) (pl : Playlist) : Prop :=
  ∀ k, ∀ x ∈ bucketOf pl k, q x

/-- Fixture: a concrete Xtream source configuration. -/
def tsrc : Source :=
  { host := "http://h", user := "u", pass := "p", srcAlias := "S" }

/-- Fixture: a vod record with only name and id populated. -/
def rvodMk (n sid : String) : RawVod :=
  { name := n, stream_id := some sid, stream_icon := none, cover := none,
    container_extension := none, rating := none, plot := none, genre := none,
    releasedate := none, releaseDate := none, cast := none }

/-- Fixture: a live record with only name and id populated. -/
def rliveMk (n sid : String) : RawLive :=
  { name := n, stream_id := some sid, stream_icon := none }

/-- Fixture: a liveness oracle under which every probe fails. -/
def deadOracle : String → Bool := fun _ => false

/-- Fixture: a liveness oracle under which every probe succeeds. -/
def allAlive : String → Bool := fun _ => true

/-- Fixture: a liveness oracle that reports exactly one URL reachable. -/
def oneAlive : String → Bool := fun u => u == "http://h/live/u/p/1.ts"

/-- Fixture for the liveness-invariant claim: a run whose only candidate is a
vod record, with every probe failing. -/
def c1cexOut : Playlist :=
  runMain [(tsrc, { live := none, vod := some [rvodMk "Zebra Movie" "1"], series := none })]
    deadOracle

/-- Fixture: a run with one live channel, whose probe succeeds. -/
def c1wOut : Playlist :=
  runMain [(tsrc, { live := some [rliveMk "Canal 5 HD" "1"], vod := none, series := none })]
    oneAlive

/-- Fixture: the published live item of `c1wOut`. -/
def c1wItem : LiveItem :=
  { title := "Canal 5 HD", contentId := "1", group := "LIVE_TV",
    url := "http://h/live/u/p/1.ts",
    hdPosterUrl := "https://via.placeholder.com/300x450?text=No+Image",
    quality := "HD", source_alias := "S" }

/-- Fixture for the dedup claim: an HD candidate. -/
def v2hd : VodItem :=
  { title := "Avatar", contentId := "1", group := "MOVIE", url := "u1",
    hdPosterUrl := "h", quality := "HD", rating := 0, plot := "p", genre := "g",
    releaseDate := "r", cast := "c", source_alias := "S" }

/-- Fixture for the dedup claim: the same candidate in 4K. -/
def v2fourk : VodItem :=
  { title := "Avatar", contentId := "2", group := "MOVIE", url := "u2",
    hdPosterUrl := "h", quality := "4K", rating := 0, plot := "p", genre := "g",
    releaseDate := "r", cast := "c", source_alias := "S" }

/-- Fixture for the premiere-bucket claim: a run whose only candidate is a
premiere movie. -/
def c3inp : SourceInput :=
  { live := none, vod := some [rvodMk "Avatar 2025" "9"], series := none }

/-- The aggregated (pre-dedup) playlist of the `c3inp` run. -/
def c3pre : Playlist :=
  mergeAll ([(tsrc, c3inp)].map (fun r => processSource r.1 r.2 deadOracle))

/-- The published catalog of the `c3inp` run. -/
def c3out : Playlist :=
  runMain [(tsrc, c3inp)] deadOracle

/-- Fixture for the premiere-flag claim: a title without a year token whose
release-date field contains one. -/
def c5rec : RawVod :=
  { name := "Gladiator Two", stream_id := some "7", stream_icon := none,
    cover := none, container_extension := none, rating := none, plot := none,
    genre := none, releasedate := some "2024-11-22", releaseDate := none,
    cast := none }

/-- Fixture for the sortedness claim: two movies appended in reverse
alphabetical order. -/
def c8out : Playlist :=
  runMain
    [(tsrc, { live := none,
              vod := some [rvodMk "Zebra Movie" "1", rvodMk "Apple Movie" "2"],
              series := none })]
    deadOracle

end Cerebro

namespace Cerebro

/-! ### Helper lemmas about the dedup pass and the playlist operations -/

theorem bucketOf_cons (a : String) (b : List CatalogItem) (rest : Playlist) (k : String) :
    bucketOf ((a, b) :: rest) k = if a = k then b else bucketOf rest k := rfl

theorem appendTo_cons (a : String) (b : List CatalogItem) (rest : Playlist)
    (k : String) (x : CatalogItem) :
    appendTo ((a, b) :: rest) k x =
      (if a = k then (a, b ++ [x]) else (a, b)) :: appendTo rest k x := by
  by_cases h : a = k <;> simp [appendTo, h]

theorem dedupAux_sublist (seen : List (List Char)) (l : List CatalogItem) :
    ((dedupAux seen l).1).Sublist l := by
  induction l generalizing seen with
  | nil => simp [dedupAux]
  | cons x rest ih =>
    by_cases h : dedupKey x ∈ seen
    · simpa [dedupAux, h] using List.Sublist.cons x (ih seen)
    · simpa [dedupAux, h] using List.Sublist.cons₂ x (ih (dedupKey x :: seen))

theorem mem_of_mem_dedupAux {seen : List (List Char)} {l : List CatalogItem}
    {x : CatalogItem} (h : x ∈ (dedupAux seen l).1) : x ∈ l :=
  (dedupAux_sublist seen l).subset h

theorem mem_dedupAux_iff (seen : List (List Char)) (l : List CatalogItem) (x : CatalogItem) :
    x ∈ (dedupAux seen l).1 ↔
      dedupKey x ∉ seen ∧
        l.find? (fun z => decide (dedupKey z = dedupKey x)) = some x := by
  induction l generalizing seen with
  | nil => simp [dedupAux]
  | cons y rest ih =>
    by_cases hy : dedupKey y ∈ seen <;> by_cases hk : dedupKey y = dedupKey x
    · have hx : dedupKey x ∈ seen := hk ▸ hy
      simp [dedupAux, hy, ih, List.find?, hk, hx]
    · simp [dedupAux, hy, ih, List.find?, hk]
    · have hx : dedupKey x ∉ seen := hk ▸ hy
      simp only [dedupAux, if_neg hy, List.mem_cons, ih, List.find?, decide_eq_true hk,
        not_or]
      constructor
      · rintro (rfl | ⟨⟨h1, _⟩, _⟩)
        · exact ⟨hx, rfl⟩
        · exact absurd hk.symm h1
      · rintro ⟨_, h2⟩
        exact Or.inl (Option.some.inj h2).symm
    · simp only [dedupAux, if_neg hy, List.mem_cons, ih, List.find?,
        decide_eq_false hk, not_or]
      constructor
      · rintro (rfl | ⟨⟨_, h1⟩, h2⟩)
        · exact absurd rfl hk
        · exact ⟨h1, h2⟩
      · rintro ⟨h1, h2⟩
        exact Or.inr ⟨⟨fun he => hk he.symm, h1⟩, h2⟩

theorem bucketOf_appendTo_ne (pl : Playlist) {k' k : String} (x : CatalogItem)
    (h : k' ≠ k) : bucketOf (appendTo pl k' x) k = bucketOf pl k := by
  induction pl with
  | nil => rfl
  | cons e rest ih =>
    obtain ⟨a, b⟩ := e
    rw [appendTo_cons]
    by_cases ha : a = k'
    · subst ha
      simp [bucketOf_cons, h, ih]
    · by_cases hak : a = k
      · subst hak
        simp [bucketOf_cons, ha]
      · simp [bucketOf_cons, ha, hak, ih]

theorem bucketOf_appendTo_self (pl : Playlist) {k : String} (x : CatalogItem)
    (h : k ∈ pl.map Prod.fst) :
    bucketOf (appendTo pl k x) k = bucketOf pl k ++ [x] := by
  induction pl with
  | nil => simp at h
  | cons e rest ih =>
    obtain ⟨a, b⟩ := e
    rw [appendTo_cons]
    by_cases ha : a = k
    · simp [ha, bucketOf_cons]
    · have h' : k ∈ rest.map Prod.fst := by
        rcases List.mem_map.mp h with ⟨f, hf, hfst⟩
        rcases List.mem_cons.mp hf with rfl | hf'
        · exact absurd hfst ha
        · exact List.mem_map.mpr ⟨f, hf', hfst⟩
      simp [ha, bucketOf_cons, ih h']

theorem keys_appendTo (pl : Playlist) (k : String) (x : CatalogItem) :
    (appendTo pl k x).map Prod.fst = pl.map Prod.fst := by
  induction pl with
  | nil => rfl
  | cons e rest ih =>
    obtain ⟨a, b⟩ := e
    rw [appendTo_cons]
    by_cases ha : a = k <;> simp [ha, ih]

theorem mem_bucketOf_appendTo {pl : Playlist} {k' k : String} {x y : CatalogItem}
    (h : x ∈ bucketOf (appendTo pl k' y) k) : x ∈ bucketOf pl k ∨ x = y := by
  induction pl with
  | nil => simp [appendTo, bucketOf] at h
  | cons e rest ih =>
    obtain ⟨a, b⟩ := e
    rw [appendTo_cons] at h
    by_cases ha : a = k'
    · by_cases hak : a = k
      · rw [if_pos ha, bucketOf_cons, if_pos hak] at h
        rcases List.mem_append.mp h with h' | h'
        · exact Or.inl (by simp [bucketOf_cons, hak, h'])
        · exact Or.inr (by simpa using h')
      · rw [if_pos ha, bucketOf_cons, if_neg hak] at h
        rcases ih h with h' | h'
        · exact Or.inl (by simp [bucketOf_cons, hak, h'])
        · exact Or.inr h'
    · by_cases hak : a = k
      · rw [if_neg ha, bucketOf_cons, if_pos hak] at h
        exact Or.inl (by simp [bucketOf_cons, hak, h])
      · rw [if_neg ha, bucketOf_cons, if_neg hak] at h
        rcases ih h with h' | h'
        · exact Or.inl (by simp [bucketOf_cons, hak, h'])
        · exact Or.inr h'

theorem mergeInto_cons (a : String) (b : List CatalogItem) (rest : Playlist)
    (r : Playlist) :
    mergeInto ((a, b) :: rest) r = (a, b ++ bucketOf r a) :: mergeInto rest r := rfl

theorem mem_bucketOf_mergeInto {f r : Playlist} {k : String} {x : CatalogItem}
    (h : x ∈ bucketOf (mergeInto f r) k) : x ∈ bucketOf f k ∨ x ∈ bucketOf r k := by
  induction f with
  | nil => simp [mergeInto, bucketOf] at h
  | cons e rest ih =>
    obtain ⟨a, b⟩ := e
    rw [mergeInto_cons, bucketOf_cons] at h
    by_cases ha : a = k
    · rw [if_pos ha] at h
      rcases List.mem_append.mp h with h' | h'
      · exact Or.inl (by rw [bucketOf_cons, if_pos ha]; exact h')
      · exact Or.inr (ha ▸ h')
    · rw [if_neg ha] at h
      rcases ih h with h' | h'
      · exact Or.inl (by rw [bucketOf_cons, if_neg ha]; exact h')
      · exact Or.inr h'

theorem bucketOf_nil_all (pl : Playlist)
    (h : ∀ e ∈ pl, e.2 = ([] : List CatalogItem)) (k : String) :
    bucketOf pl k = [] := by
  induction pl with
  | nil => rfl
  | cons e rest ih =>
    obtain ⟨a, b⟩ := e
    rw [bucketOf_cons]
    by_cases ha : a = k
    · rw [if_pos ha]; exact h (a, b) (List.mem_cons_self _ _)
    · rw [if_neg ha]; exact ih (fun e he => h e (List.mem_cons_of_mem _ he))

theorem bucketOf_empty (k : String) : bucketOf emptyPlaylist k = [] :=
  bucketOf_nil_all _ (by decide) k

theorem PlPred_empty (q : CatalogItem → Prop) : PlPred q emptyPlaylist := by
  intro k x hx
  rw [bucketOf_empty] at hx
  exact absurd hx (List.not_mem_nil x)

theorem PlPred_appendTo {q : CatalogItem → Prop} {pl : Playlist} (h : PlPred q pl)
    {y : CatalogItem} (hy : q y) (k' : String) : PlPred q (appendTo pl k' y) := by
  intro k x hx
  rcases mem_bucketOf_appendTo hx with h' | rfl
  · exact h k x h'
  · exact hy

theorem foldl_preserve {α : Type} {P : Playlist → Prop} {f : Playlist → α → Playlist}
    (hstep : ∀ p a, P p → P (f p a)) :
    ∀ (l : List α) (pl : Playlist), P pl → P (l.foldl f pl)
  | [], _, h => h
  | a :: l, pl, h => foldl_preserve hstep l (f pl a) (hstep pl a h)

theorem PlPred_processLive {q : CatalogItem → Prop} {alive : String → Bool}
    (hq : ∀ li : LiveItem, alive li.url = true → q (.live li)) (src : Source)
    (data : List RawLive) {pl : Playlist} (h : PlPred q pl) :
    PlPred q (processLive src data alive pl) := by
  unfold processLive
  refine foldl_preserve ?_ _ _ h
  intro p a hp
  by_cases ha : alive a.url = true
  · rw [if_pos ha]; exact PlPred_appendTo hp (hq a ha) _
  · rw [if_neg ha]; exact hp

theorem PlPred_processVod {q : CatalogItem → Prop} (hq : ∀ v : VodItem, q (.vod v))
    (src : Source) :
    ∀ (data : List RawVod) (pl : Playlist), PlPred q pl → PlPred q (processVod src data pl)
  | [], _, h => h
  | item :: rest, pl, h => by
    rw [processVod.eq_def]
    dsimp only
    by_cases hb : globalBlockMatch item.name = true
    · rw [if_pos hb]
      exact PlPred_processVod hq src rest pl h
    · rw [if_neg hb]
      rcases htr : transform_xtream_vod item src with _ | v
      · exact PlPred_processVod hq src rest pl h
      · dsimp only
        by_cases hp : is_premiere (VodItem.title v) = true
        · rw [if_pos hp]
          exact PlPred_processVod hq src rest _
            (PlPred_appendTo (PlPred_appendTo h (hq v) _) (hq v) _)
        · rw [if_neg hp]
          exact PlPred_processVod hq src rest _ (PlPred_appendTo h (hq v) _)

theorem PlPred_processSeries {q : CatalogItem → Prop}
    (hq : ∀ v : SeriesItem, q (.series v)) (src : Source) :
    ∀ (data : List RawSeries) (pl : Playlist), PlPred q pl → PlPred q (processSeries src data pl)
  | [], _, h => h
  | item :: rest, pl, h => by
    rw [processSeries.eq_def]
    dsimp only
    by_cases hb : globalBlockMatch item.name = true
    · rw [if_pos hb]
      exact PlPred_processSeries hq src rest pl h
    · rw [if_neg hb]
      rcases htr : transform_xtream_series item src with _ | v
      · exact PlPred_processSeries hq src rest pl h
      · dsimp only
        by_cases hp : is_premiere (SeriesItem.title v) = true
        · rw [if_pos hp]
          exact PlPred_processSeries hq src rest _
            (PlPred_appendTo (PlPred_appendTo h (hq v) _) (hq v) _)
        · rw [if_neg hp]
          exact PlPred_processSeries hq src rest _ (PlPred_appendTo h (hq v) _)

theorem PlPred_processSource {q : CatalogItem → Prop} {alive : String → Bool}
    (hq_live : ∀ li : LiveItem, alive li.url = true → q (.live li))
    (hq_vod : ∀ v : VodItem, q (.vod v))
    (hq_series : ∀ v : SeriesItem, q (.series v))
    (src : Source) (inp : SourceInput) : PlPred q (processSource src inp alive) := by
  obtain ⟨lv, vd, sr⟩ := inp
  rcases lv with _ | dl <;> rcases vd with _ | dv <;> rcases sr with _ | ds <;>
    (unfold processSource
     dsimp only
     (try split_ifs) <;>
       repeat (first
         | exact PlPred_empty q
         | apply PlPred_processSeries hq_series
         | apply PlPred_processVod hq_vod
         | apply PlPred_processLive hq_live))

theorem PlPred_mergeInto {q : CatalogItem → Prop} {f r : Playlist}
    (hf : PlPred q f) (hr : PlPred q r) : PlPred q (mergeInto f r) := by
  intro k x hx
  rcases mem_bucketOf_mergeInto hx with h' | h'
  · exact hf k x h'
  · exact hr k x h'

theorem PlPred_mergeAll {q : CatalogItem → Prop} (ps : List Playlist)
    (h : ∀ p ∈ ps, PlPred q p) : PlPred q (mergeAll ps) := by
  unfold mergeAll
  have step : ∀ (l : List Playlist) (acc : Playlist), (∀ p ∈ l, PlPred q p) → PlPred q acc →
      PlPred q (l.foldl mergeInto acc) := by
    intro l
    induction l with
    | nil => intro acc _ hacc; exact hacc
    | cons p rest ih =>
      intro acc hl hacc
      exact ih _ (fun y hy => hl y (List.mem_cons_of_mem _ hy))
        (PlPred_mergeInto hacc (hl p (List.mem_cons_self _ _)))
  exact step ps emptyPlaylist h (PlPred_empty q)

theorem bucketOf_dedupBuckets_sublist :
    ∀ (pl : Playlist) (seen : List (List Char)) (k : String),
      (bucketOf (dedupBuckets seen pl) k).Sublist (bucketOf pl k)
  | [], _, _ => List.Sublist.refl _
  | (a, b) :: rest, seen, k => by
    rw [dedupBuckets.eq_def]
    dsimp only
    rw [bucketOf_cons, bucketOf_cons]
    by_cases ha : a = k
    · rw [if_pos ha, if_pos ha]
      exact dedupAux_sublist seen b
    · rw [if_neg ha, if_neg ha]
      exact bucketOf_dedupBuckets_sublist rest (dedupAux seen b).2 k

theorem mem_bucketOf_dedupPlaylist {pl : Playlist} {k : String} {x : CatalogItem}
    (h : x ∈ bucketOf (dedupPlaylist pl) k) : x ∈ bucketOf pl k :=
  (bucketOf_dedupBuckets_sublist pl [] k).subset h

/-! ### Claim C1: liveness verification and the published catalog -/

/-- C1 counterexample: the claim "every candidate in any bucket of the
published catalog has passed liveness verification" is false.  In a run whose
liveness oracle reports every URL dead, a vod candidate is still published
under `movies` — `_process_vod` performs no liveness check at all. -/
theorem C1_counterexample :
    (bucketOf c1cexOut "movies").map CatalogItem.url = ["http://h/movie/u/p/1.mp4"] ∧
    deadOracle "http://h/movie/u/p/1.mp4" = false := by
  decide

/-- C1 (amended): only live-TV-path candidates are liveness-verified.  Every
item of the aggregated pre-dedup playlist that came from the live path has a
true probe verdict (a live candidate with a false verdict is discarded before
the deduplication pass), and the same holds of the published catalog; vod and
series candidates are published without any liveness check. -/
theorem C1_amended_thm (runs : List (Source × SourceInput)) (alive : String → Bool) :
    (∀ k x, x ∈ bucketOf (mergeAll (runs.map (fun r => processSource r.1 r.2 alive))) k →
      ∀ li : LiveItem, x = CatalogItem.live li → alive li.url = true) ∧
    (∀ k x, x ∈ bucketOf (runMain runs alive) k →
      ∀ li : LiveItem, x = CatalogItem.live li → alive li.url = true) := by
  have hmerge : PlPred (fun x => ∀ li : LiveItem, x = CatalogItem.live li → alive li.url = true)
      (mergeAll (runs.map (fun r => processSource r.1 r.2 alive))) := by
    apply PlPred_mergeAll
    intro p hp
    rcases List.mem_map.mp hp with ⟨r, _, rfl⟩
    apply PlPred_processSource
    · intro li hli li2 heq
      injection heq with h2
      subst h2
      exact hli
    · intro v li2 heq
      exact CatalogItem.noConfusion heq
    · intro v li2 heq
      exact CatalogItem.noConfusion heq
  refine ⟨fun k x hx => hmerge k x hx, fun k x hx => hmerge k x ?_⟩
  exact mem_bucketOf_dedupPlaylist hx

/-- C1 witness: the amended theorem applied to a concrete run with one live
channel whose probe succeeds. -/
theorem C1_witness : oneAlive c1wItem.url = true :=
  (C1_amended_thm
      [(tsrc, { live := some [rliveMk "Canal 5 HD" "1"], vod := none, series := none })]
      oneAlive).2
    "live_tv" (CatalogItem.live c1wItem) (by decide) c1wItem rfl

/-! ### Claim C2: deduplication identity and quality preference -/

/-- C2 counterexample: two verified candidates with equal normalized titles
differing only in quality tier (HD vs 4K) are NOT collapsed by the dedup
pass — both survive, refuting "the output contains exactly one entry, the 4K
variant".  The dedup key includes the quality tier. -/
theorem C2_counterexample :
    normTitle (CatalogItem.vod v2hd).title = normTitle (CatalogItem.vod v2fourk).title ∧
    ((dedupAux [] [CatalogItem.vod v2hd, CatalogItem.vod v2fourk]).1).map CatalogItem.quality
      = ["HD", "4K"] := by
  decide

/-- C2 (amended): the Deduplicator treats two candidates as duplicates exactly
when their dedup keys — normalized title AND quality tier — are equal; among
such duplicates the first-seen candidate is retained (an item survives iff it
is the first list element bearing its key), and two candidates with distinct
keys (e.g. HD vs 4K variants of one title) are both retained. -/
theorem C2_amended_thm :
    (∀ (l : List CatalogItem) (x : CatalogItem),
      x ∈ (dedupAux [] l).1 ↔
        l.find? (fun z => decide (dedupKey z = dedupKey x)) = some x) ∧
    (∀ a b : CatalogItem, dedupKey a ≠ dedupKey b → (dedupAux [] [a, b]).1 = [a, b]) := by
  constructor
  · intro l x
    rw [mem_dedupAux_iff]
    simp
  · intro a b hab
    have hne : dedupKey b ≠ dedupKey a := fun h => hab h.symm
    simp [dedupAux, hne]

/-- C2 witness: the amended theorem applied to the concrete HD/4K pair. -/
theorem C2_witness :
    (dedupAux [] [CatalogItem.vod v2hd, CatalogItem.vod v2fourk]).1
      = [CatalogItem.vod v2hd, CatalogItem.vod v2fourk] :=
  C2_amended_thm.2 _ _ (by decide)

/-! ### Claim C3: additive premiere membership -/

/-- C3: evaluation at the failing input.  A premiere movie ("Avatar 2025") is
present in both `movies` and `premieres` of the aggregated pre-dedup playlist
— premiere membership is additive there, as the claim states — but the
published catalog has it only under `movies`: the dedup pass shares one
`unique_hashes` set across buckets and visits `premieres` after `movies`, so
the premieres bucket is emptied. -/
theorem C3_thm :
    (bucketOf c3pre "movies").length = 1 ∧
    (bucketOf c3pre "premieres").length = 1 ∧
    (bucketOf c3out "movies").length = 1 ∧
    (bucketOf c3out "premieres").length = 0 := by
  decide

/-! ### Claim C8: per-category output order -/

/-- C8 counterexample: the published catalog is not sorted by title — two
movies appended in reverse alphabetical order are published in exactly that
order. -/
theorem C8_counterexample :
    (bucketOf c8out "movies").map CatalogItem.title = ["Zebra Movie", "Apple Movie"] ∧
    sortedByTitle (bucketOf c8out "movies") = false := by
  decide

/-- C8 (amended): within every category the published list preserves the
insertion (first-appended) order of the aggregated playlist: the dedup pass
only removes later duplicates and never reorders, and no sorting is applied
anywhere. -/
theorem C8_amended_thm :
    (∀ (pl : Playlist) (k : String),
      (bucketOf (dedupPlaylist pl) k).Sublist (bucketOf pl k)) ∧
    (∀ (runs : List (Source × SourceInput)) (alive : String → Bool) (k : String),
      (bucketOf (runMain runs alive) k).Sublist
        (bucketOf (mergeAll (runs.map (fun r => processSource r.1 r.2 alive))) k)) :=
  ⟨fun pl k => bucketOf_dedupBuckets_sublist pl [] k,
   fun _ _ k => bucketOf_dedupBuckets_sublist _ [] k⟩

/-! ### Claim C4: no sports-specific exclusion relaxation -/

/-- C4 counterexample: the claim asserts that a title matching a sports
marker and a full-blocklist pattern outside the narrow region set is still
classified SPORTS.  "espn xxx" matches the sports marker "espn" and the
blocklist content marker "xxx" (not a region at all), yet `categorize`
excludes it: no narrower sports exclusion set exists. -/
theorem C4_counterexample :
    sportsMatch "espn xxx" = true ∧ globalBlockMatch "espn xxx" = true ∧
    categorize "espn xxx" = none := by
  decide

/-- C4 (amended): sports candidates are evaluated against the same full
hard-exclusion blocklist as every other candidate: any title matching any
`GLOBAL_BLOCKLIST` pattern is excluded before the sports rule is consulted. -/
theorem C4_amended_thm (name : String) (h : globalBlockMatch name = true) :
    categorize name = none := by
  simp [categorize, h]

/-- C4 witness: the amended theorem applied to a concrete blocklisted sports
title. -/
theorem C4_witness : categorize "ufc brasil" = none :=
  C4_amended_thm "ufc brasil" (by decide)

/-! ### Claim C7: first-match-wins category ladder -/

/-- C7: category assignment is a first-match-wins priority ladder — hard
exclusion first, then kids, sports, music, documentary, and the general
regional test (or the "latino" substring) last; in particular a title
matching both a kids marker and a general marker (and no blocklist pattern)
classifies KIDS and never LIVE_TV. -/
theorem C7_thm :
    (∀ name, globalBlockMatch name = true → categorize name = none) ∧
    (∀ name, globalBlockMatch name = false → kidsMatch name = true →
      categorize name = some "KIDS") ∧
    (∀ name, globalBlockMatch name = false → kidsMatch name = false →
      sportsMatch name = true → categorize name = some "SPORTS") ∧
    (∀ name, globalBlockMatch name = false → kidsMatch name = false →
      sportsMatch name = false → musicMatch name = true →
      categorize name = some "MUSIC") ∧
    (∀ name, globalBlockMatch name = false → kidsMatch name = false →
      sportsMatch name = false → musicMatch name = false → docsMatch name = true →
      categorize name = some "DOCS") ∧
    (∀ name, globalBlockMatch name = false → kidsMatch name = false →
      sportsMatch name = false → musicMatch name = false → docsMatch name = false →
      (generalMatch name || latinoSub name) = true →
      categorize name = some "LIVE_TV") ∧
    (∀ name, globalBlockMatch name = false → kidsMatch name = true →
      generalMatch name = true →
      categorize name = some "KIDS" ∧ categorize name ≠ some "LIVE_TV") := by
  have hkids : ∀ name, globalBlockMatch name = false → kidsMatch name = true →
      categorize name = some "KIDS" := by
    intro name h1 h2
    simp [categorize, h1, h2]
  refine ⟨?_, hkids, ?_, ?_, ?_, ?_, ?_⟩
  · intro name h
    simp [categorize, h]
  · intro name h1 h2 h3
    simp [categorize, h1, h2, h3]
  · intro name h1 h2 h3 h4
    simp [categorize, h1, h2, h3, h4]
  · intro name h1 h2 h3 h4 h5
    simp [categorize, h1, h2, h3, h4, h5]
  · intro name h1 h2 h3 h4 h5 h6
    simp [categorize, h1, h2, h3, h4, h5, h6]
  · intro name h1 h2 _
    refine ⟨hkids name h1 h2, ?_⟩
    rw [hkids name h1 h2]
    decide

/-- C7 witness: the ladder theorem applied at concrete titles for each rung,
including a kids-and-general title and a blocklisted kids title. -/
theorem C7_witness :
    categorize "telecinco kids" = none ∧
    categorize "nick televisa" = some "KIDS" ∧
    categorize "espn mx" = some "SPORTS" ∧
    categorize "mtv" = some "MUSIC" ∧
    categorize "history" = some "DOCS" ∧
    categorize "televisa" = some "LIVE_TV" :=
  ⟨C7_thm.1 "telecinco kids" (by decide),
   (C7_thm.2.2.2.2.2.2 "nick televisa" (by decide) (by decide) (by decide)).1,
   C7_thm.2.2.1 "espn mx" (by decide) (by decide) (by decide),
   C7_thm.2.2.2.1 "mtv" (by decide) (by decide) (by decide) (by decide),
   C7_thm.2.2.2.2.1 "history" (by decide) (by decide) (by decide) (by decide) (by decide),
   C7_thm.2.2.2.2.2.1 "televisa" (by decide) (by decide) (by decide) (by decide)
     (by decide) (by decide)⟩

/-! ### Claim C9: liveness probe verdict -/

/-- C9 counterexample: the probe verdict is not "redirect or explicit ok":
a completed probe with the informational status 100 — neither a 2xx success
nor a 3xx redirect — is also reported alive, because the code accepts any
status below 400. -/
theorem C9_counterexample :
    check_stream_health "http://h/stream.ts" (ProbeOutcome.status 100) = true ∧
    specProbeSuccess 100 = false := by
  decide

/-- C9 (amended): for a URL passing the compatibility gate, the liveness
check returns true exactly when the single probe completes with a status
code below 400 (all success and redirect statuses, but also informational
ones); any status of 400 or above, any timeout, and any connection failure
yield false, and no exception escapes — the function is total. -/
theorem C9_amended_thm (url : String) (probe : ProbeOutcome)
    (h : streamCompatMatch url = false) :
    check_stream_health url probe = true ↔
      ∃ code, probe = ProbeOutcome.status code ∧ code < 400 := by
  cases probe with
  | status code => simp [check_stream_health, h]
  | timeout => simp [check_stream_health, h]
  | connectionError => simp [check_stream_health, h]

/-- C9 witness: the amended theorem applied at a concrete URL and a redirect
status. -/
theorem C9_witness :
    check_stream_health "http://h/stream.ts" (ProbeOutcome.status 302) = true :=
  (C9_amended_thm "http://h/stream.ts" (ProbeOutcome.status 302) (by decide)).mpr
    ⟨302, rfl, by decide⟩

/-! ### Claim C5: the premiere flag -/

theorem bucketOf_processVod (src : Source) :
    ∀ (data : List RawVod) (pl : Playlist),
      "movies" ∈ pl.map Prod.fst → "premieres" ∈ pl.map Prod.fst →
      bucketOf (processVod src data pl) "movies"
          = bucketOf pl "movies" ++ (vodAdds src data).map CatalogItem.vod ∧
        bucketOf (processVod src data pl) "premieres"
          = bucketOf pl "premieres"
              ++ ((vodAdds src data).filter
                    (fun v => is_premiere v.title)).map CatalogItem.vod
  | [], pl, _, _ => by simp [processVod, vodAdds]
  | item :: rest, pl, hm, hp => by
    rw [processVod.eq_def]
    dsimp only
    by_cases hb : globalBlockMatch item.name = true
    · rw [if_pos hb]
      have hv : vodAdds src (item :: rest) = vodAdds src rest := by
        simp [vodAdds, List.filterMap_cons, hb]
      rw [hv]
      exact bucketOf_processVod src rest pl hm hp
    · rw [if_neg hb]
      rcases htr : transform_xtream_vod item src with _ | v
      · have hv : vodAdds src (item :: rest) = vodAdds src rest := by
          simp [vodAdds, List.filterMap_cons, hb, htr]
        rw [hv]
        exact bucketOf_processVod src rest pl hm hp
      · dsimp only
        have hv : vodAdds src (item :: rest) = v :: vodAdds src rest := by
          simp [vodAdds, List.filterMap_cons, hb, htr]
        rw [hv]
        by_cases hpm : is_premiere v.title = true
        · rw [if_pos hpm]
          have hm2 : "movies" ∈
              (appendTo (appendTo pl "movies" (CatalogItem.vod v)) "premieres"
                (CatalogItem.vod v)).map Prod.fst := by
            rw [keys_appendTo, keys_appendTo]; exact hm
          have hp2 : "premieres" ∈
              (appendTo (appendTo pl "movies" (CatalogItem.vod v)) "premieres"
                (CatalogItem.vod v)).map Prod.fst := by
            rw [keys_appendTo, keys_appendTo]; exact hp
          obtain ⟨ih1, ih2⟩ := bucketOf_processVod src rest _ hm2 hp2
          rw [ih1, ih2]
          constructor
          · rw [bucketOf_appendTo_ne _ _ (by decide),
              bucketOf_appendTo_self _ _ hm]
            simp
          · rw [bucketOf_appendTo_self _ _
                (by rw [keys_appendTo]; exact hp),
              bucketOf_appendTo_ne _ _ (by decide),
              List.filter_cons_of_pos (by simpa using hpm)]
            simp
        · rw [if_neg hpm]
          have hm2 : "movies" ∈
              (appendTo pl "movies" (CatalogItem.vod v)).map Prod.fst := by
            rw [keys_appendTo]; exact hm
          have hp2 : "premieres" ∈
              (appendTo pl "movies" (CatalogItem.vod v)).map Prod.fst := by
            rw [keys_appendTo]; exact hp
          obtain ⟨ih1, ih2⟩ := bucketOf_processVod src rest _ hm2 hp2
          rw [ih1, ih2]
          constructor
          · rw [bucketOf_appendTo_self _ _ hm]
            simp
          · rw [bucketOf_appendTo_ne _ _ (by decide),
              List.filter_cons_of_neg (by simpa using hpm)]

/-- C5 counterexample: a candidate whose title lacks the year token but whose
release-date field contains it is NOT flagged as a premiere — the record is
published under `movies` but the premieres bucket stays empty, because
`is_premiere` is applied to the title only. -/
theorem C5_counterexample :
    subOcc ("2024".toList) ("2024-11-22".toList) = true ∧
    c5rec.releasedate = some "2024-11-22" ∧
    is_premiere "Gladiator Two" = false ∧
    (bucketOf (processVod tsrc [c5rec] emptyPlaylist) "movies").map CatalogItem.title
      = ["Gladiator Two"] ∧
    (bucketOf (processVod tsrc [c5rec] emptyPlaylist) "premieres").length = 0 := by
  decide

/-- C5 (amended): the premiere flag depends on the title alone — after a
`_process_vod` run the premieres bucket is exactly the movies bucket filtered
by "the title contains a recent-year token (2024 or 2025)"; release-date
metadata is never consulted. -/
theorem C5_amended_thm (src : Source) (data : List RawVod) :
    bucketOf (processVod src data emptyPlaylist) "premieres"
      = (bucketOf (processVod src data emptyPlaylist) "movies").filter
          (fun x => is_premiere x.title) := by
  obtain ⟨h1, h2⟩ := bucketOf_processVod src data emptyPlaylist (by decide) (by decide)
  rw [h1, h2, bucketOf_empty, bucketOf_empty, List.nil_append, List.nil_append,
    List.filter_map]
  rfl

end Cerebro

namespace Cerebro

theorem isDigit_iff (c : Char) : c.isDigit = true ↔ 48 ≤ c.toNat ∧ c.toNat ≤ 57 := by
  simp only [Char.isDigit, Bool.and_eq_true, decide_eq_true_eq, ge_iff_le]
  rw [UInt32.le_def, UInt32.le_def, BitVec.le_def, BitVec.le_def]
  exact Iff.rfl

theorem toLower_eq_self {c : Char} (h : c.toNat < 65) : Char.toLower c = c := by
  rw [Char.toLower, if_neg]
  omega

theorem toNat_ofNat_valid {m : Nat} (h1 : m < 55296) : (Char.ofNat m).toNat = m := by
  rw [Char.ofNat, dif_pos (Or.inl h1)]
  rfl

theorem toLower_isDigit (c : Char) : (Char.toLower c).isDigit = c.isDigit := by
  by_cases h : 65 ≤ c.toNat ∧ c.toNat ≤ 90
  · rw [Char.toLower, if_pos h]
    have h1 : (Char.ofNat (c.toNat + 32)).toNat = c.toNat + 32 :=
      toNat_ofNat_valid (by omega)
    have h2 : (Char.ofNat (c.toNat + 32)).isDigit = false := by
      rw [← Bool.not_eq_true, isDigit_iff, h1]
      omega
    have h3 : c.isDigit = false := by
      rw [← Bool.not_eq_true, isDigit_iff]
      omega
    rw [h2, h3]
  · rw [Char.toLower, if_neg h]

theorem digitOrDot_toNat_lt {c : Char} (h : (c.isDigit || c == '.') = true) :
    c.toNat < 65 := by
  rw [Bool.or_eq_true] at h
  rcases h with h' | h'
  · have := (isDigit_iff c).mp h'
    omega
  · have : c = '.' := by simpa using h'
    subst this
    decide

theorem digitOrDot_ne_slash {c : Char} (h : (c.isDigit || c == '.') = true) :
    c ≠ '/' := by
  intro he
  subst he
  simp [Char.isDigit] at h

theorem mapLower_eq_self {l : List Char} (h : ∀ c ∈ l, (c.isDigit || c == '.') = true) :
    l.map Char.toLower = l := by
  induction l with
  | nil => rfl
  | cons a l' ih =>
    rw [List.map_cons, toLower_eq_self (digitOrDot_toNat_lt (h a (List.mem_cons_self _ _))),
      ih (fun c hc => h c (List.mem_cons_of_mem _ hc))]

theorem takeWhile_append_head_neg {p : Char → Bool} (c : Char) (r : List Char)
    (hc : p c = false) :
    ∀ (l : List Char), (∀ x ∈ l, p x = true) →
      List.takeWhile p (l ++ c :: r) = l
  | [], _ => by simp [List.takeWhile_cons, hc]
  | a :: l', hl => by
    rw [List.cons_append, List.takeWhile_cons, hl a (List.mem_cons_self _ _), if_pos rfl,
      takeWhile_append_head_neg c r hc l' (fun x hx => hl x (List.mem_cons_of_mem _ hx))]

theorem mem_of_subOcc_cons {c : Char} {p s : List Char} (h : subOcc (c :: p) s = true) :
    c ∈ s := by
  induction s with
  | nil => simp [subOcc] at h
  | cons b s' ih =>
    rw [subOcc, Bool.or_eq_true] at h
    rcases h with h' | h'
    · rw [starts, Bool.and_eq_true] at h'
      have : c = b := by simpa using h'.1
      exact this ▸ List.mem_cons_self _ _
    · exact List.mem_cons_of_mem _ (ih h')

theorem decValue_nonneg (s : List Char) : 0 ≤ decValue s := by
  rw [decValue]
  positivity

/-- C6: `clean_rating` — for a decimal-literal input with a "/10" divisor the
numeric prefix is parsed and clamped at 10; an input containing no digit at
all yields 0; and every result lies in the interval [0, 10]. -/
theorem C6_thm :
    (∀ (ns : String) (v : ℚ), pyFloat ns.toList = some v →
      clean_rating (ns ++ "/10") = min v 10) ∧
    (∀ s : String, s.toList.all (fun c => !c.isDigit) = true → clean_rating s = 0) ∧
    (∀ s : String, 0 ≤ clean_rating s ∧ clean_rating s ≤ 10) := by
  refine ⟨?_, ?_, ?_⟩
  · intro ns v h
    have hfl : isFloatLit ns.toList = true := by
      by_contra hc
      rw [pyFloat, if_neg hc] at h
      exact Option.noConfusion h
    have hv : decValue ns.toList = v := by
      rw [pyFloat, if_pos hfl] at h
      exact Option.some.inj h
    have hsplit := hfl
    rw [isFloatLit, Bool.and_eq_true, Bool.and_eq_true] at hsplit
    obtain ⟨⟨hall0, _⟩, hany⟩ := hsplit
    have hall : ∀ c ∈ ns.toList, (c.isDigit || c == '.') = true :=
      fun c hc => List.all_eq_true.mp hall0 c hc
    have hlist : (ns ++ "/10").toList = ns.toList ++ '/' :: ['1', '0'] := by
      simp [String.toList]
    have hne : (ns ++ "/10") ≠ "" := by
      intro he
      have := congrArg String.toList he
      rw [hlist] at this
      simp at this
    have hlower : lowerList (ns ++ "/10") = ns.toList ++ '/' :: ['1', '0'] := by
      rw [lowerList, hlist, List.map_append, mapLower_eq_self hall]
      rfl
    have htake : (lowerList (ns ++ "/10")).takeWhile (fun c => c ≠ '/') = ns.toList := by
      rw [hlower]
      exact takeWhile_append_head_neg _ _ (by decide) ns.toList
        (fun x hx => by simpa using digitOrDot_ne_slash (hall x hx))
    rw [clean_rating, if_neg hne]
    rw [htake]
    have hna : subOcc ("n/a".toList) ns.toList = false := by
      by_contra hc
      have hc' : subOcc ('n' :: "/a".toList) ns.toList = true := by
        simpa using Bool.of_not_eq_false hc
      have := hall 'n' (mem_of_subOcc_cons hc')
      simp at this
    rw [if_neg (by simpa using hna)]
    rw [List.filter_eq_self.mpr hall]
    have hnsne : ns.toList ≠ [] := by
      intro he
      rw [he] at hany
      simp at hany
    rw [if_neg hnsne, h]
  · intro s hnd
    have hnd' : ∀ c ∈ s.toList, c.isDigit = false := by
      intro c hc
      simpa using (List.all_eq_true.mp hnd) c hc
    by_cases h0 : s = ""
    · simp [clean_rating, h0]
    · rw [clean_rating, if_neg h0]
      by_cases hna : subOcc ("n/a".toList) ((lowerList s).takeWhile (fun c => c ≠ '/')) = true
      · rw [if_pos hna]
      · rw [if_neg hna]
        by_cases hs :
            ((lowerList s).takeWhile (fun c => c ≠ '/')).filter
              (fun c => c.isDigit || c == '.') = []
        · rw [if_pos hs]
        · rw [if_neg hs]
          have hnodig : ∀ c ∈ ((lowerList s).takeWhile (fun c => c ≠ '/')).filter
              (fun c => c.isDigit || c == '.'), c.isDigit = false := by
            intro c hc
            have hc1 : c ∈ lowerList s :=
              (List.takeWhile_sublist _).subset (List.mem_of_mem_filter hc)
            rcases List.mem_map.mp hc1 with ⟨d, hd, rfl⟩
            rw [toLower_isDigit]
            exact hnd' d hd
          have hfl : isFloatLit (((lowerList s).takeWhile (fun c => c ≠ '/')).filter
              (fun c => c.isDigit || c == '.')) = false := by
            rw [isFloatLit]
            have : (((lowerList s).takeWhile (fun c => c ≠ '/')).filter
                (fun c => c.isDigit || c == '.')).any (fun c => c.isDigit) = false := by
              rw [← Bool.not_eq_true, List.any_eq_true]
              rintro ⟨c, hc, hcd⟩
              rw [hnodig c hc] at hcd
              exact Bool.false_ne_true hcd
            rw [this]
            simp
          rw [pyFloat, if_neg (by simpa using hfl)]
  · intro s
    rw [clean_rating]
    dsimp only
    split_ifs
    · exact ⟨le_refl 0, by norm_num⟩
    · exact ⟨le_refl 0, by norm_num⟩
    · exact ⟨le_refl 0, by norm_num⟩
    · rcases hpf : pyFloat (((lowerList s).takeWhile (fun c => c ≠ '/')).filter
          (fun c => c.isDigit || c == '.')) with _ | r
      · exact ⟨le_refl 0, by norm_num⟩
      · have hr : 0 ≤ r := by
          rw [pyFloat] at hpf
          by_cases hfl : isFloatLit (((lowerList s).takeWhile (fun c => c ≠ '/')).filter
              (fun c => c.isDigit || c == '.')) = true
          · rw [if_pos hfl] at hpf
            exact (Option.some.inj hpf) ▸ decValue_nonneg _
          · rw [if_neg hfl] at hpf
            exact Option.noConfusion hpf
        exact ⟨le_min hr (by norm_num), min_le_right r 10⟩

end Cerebro

namespace Cerebro

/-- C6 witness: the theorem applied at the concrete rating string "8.5/10",
the digit-free string "abc", and an arbitrary string. -/
theorem C6_witness :
    clean_rating ("8.5" ++ "/10") = min (17 / 2 : ℚ) 10 ∧
    clean_rating "abc" = 0 ∧
    (0 ≤ clean_rating "xyz" ∧ clean_rating "xyz" ≤ 10) :=
  ⟨C6_thm.1 "8.5" (17 / 2) (by
      have h1 : isFloatLit ("8.5".toList) = true := by decide
      have h2 : intPart ("8.5".toList) = ['8'] := by decide
      have h3 : fracPart ("8.5".toList) = ['5'] := by decide
      have h4 : digitsToNat ['8'] = 8 := by decide
      have h5 : digitsToNat ['5'] = 5 := by decide
      rw [pyFloat, if_pos h1, decValue, h2, h3, h4, h5]
      norm_num),
   C6_thm.2.1 "abc" (by decide),
   C6_thm.2.2 "xyz"⟩

end Cerebro
